import Mathlib

/-!
Verification of `src/rag_system/processing/reasoning_engine.py`
(`UncertaintyAwareReasoningEngine`).

The Python code is embedded shallowly:

* Python floats are modelled as `Rat` (all arithmetic in the engine is
  exact decimal arithmetic on small constants, so rationals are faithful).
* Python dicts are modelled as association lists in insertion order
  (`dictGet` / `dictSet` below mirror `d.get(k)` / `d[k] = v`: assignment
  replaces the value of an existing key in place and appends a fresh key
  at the end, exactly like a Python dict preserving insertion order).
* Fallible code is modelled with `Except String`.
-/

/-- Embeds Python `d.get(k)` on an association list in insertion order. -/
def dictGet {κ ν : Type} [DecidableEq κ] : List (κ × ν) → κ → Option ν
  | [], _ => none
  | p :: rest, k => if p.1 = k then some p.2 else dictGet rest k

/-- Embeds Python `d[k] = v`: the first (in a dict: the only) binding of `k`
is replaced in place; a fresh key is appended at the end. -/
def dictSet {κ ν : Type} [DecidableEq κ] : List (κ × ν) → κ → ν → List (κ × ν)
  | [], k, v => [(k, v)]
  | p :: rest, k, v => if p.1 = k then (k, v) :: rest else p :: dictSet rest k v

theorem dictGet_dictSet_self {κ ν : Type} [DecidableEq κ]
    (d : List (κ × ν)) (k : κ) (v : ν) : dictGet (dictSet d k v) k = some v := by
  induction d with
  | nil => simp [dictGet, dictSet]
  | cons p rest ih =>
    by_cases hp : p.1 = k
    · simp [dictSet, hp, dictGet]
    · simp [dictSet, hp, dictGet, ih]

/-- The causal-edge object stored in `self.causal_edges`.  The class that the
engine stores there is defined outside this file set; `update_causal_strength`
reads and writes only its `strength` attribute, which is all we model. -/
structure CausalEdge where
  strength : Rat
deriving DecidableEq

/-- The `self.causal_edges` dict, keyed by the `(source, target)` pair. -/
abbrev CausalEdges := List ((String × String) × CausalEdge)

/-- Embeds `update_causal_strength` (reasoning_engine.py lines 60-64):

    edge = self.causal_edges.get((source, target))
    if edge:
        learning_rate = 0.1
        edge.strength = (1 - learning_rate) * edge.strength
                        + learning_rate * observed_probability

When the key is absent, `dict.get` returns `None` (falsy) and the body does
nothing: no edge is created and no observation count exists anywhere in the
class.  When the key is present the edge object is mutated in place, which
functionally is `dictSet` at the same key. -/
def update_causal_strength (causal_edges : CausalEdges) (source target : String)
    (observed_probability : Rat) : CausalEdges :=
  match dictGet causal_edges (source, target) with
  | none => causal_edges
  | some edge =>
    let learning_rate : Rat := 1/10
    dictSet causal_edges (source, target)
      { strength := (1 - learning_rate) * edge.strength
          + learning_rate * observed_probability }

/-- A sequence of `update_causal_strength` calls on the same `(source, target)`
pair, one per observed probability, in order. -/
def run_observations (causal_edges : CausalEdges) (source target : String)
    (observations : List Rat) : CausalEdges :=
  observations.foldl (fun es p => update_causal_strength es source target p) causal_edges

/-- Claim C1, counterexample: on a fresh tracker (empty `causal_edges`),
`update_causal_strength "A" "B" 0.9` creates no edge at all — the dict stays
empty and lookup of `("A","B")` still yields `None` — contradicting the claim
that a new edge with `strength = 0.9` and `observationCount = 1` is created. -/
theorem update_causal_strength_fresh_tracker_creates_no_edge :
    update_causal_strength [] "A" "B" (9/10) = []
    ∧ dictGet (update_causal_strength [] "A" "B" (9/10)) ("A", "B")
        = (none : Option CausalEdge) := by
  constructor
  · rfl
  · rfl

/-- Claim C1, amended: `update_causal_strength source target p` leaves
`causal_edges` unchanged when no edge is keyed by `(source, target)` (nothing
is created, and no observation count is maintained anywhere); when an edge
exists, its strength becomes `(1 - 0.1) * strength + 0.1 * p`. -/
theorem update_causal_strength_cases (edges : CausalEdges) (s t : String) (p : Rat) :
    (dictGet edges (s, t) = none → update_causal_strength edges s t p = edges)
    ∧ ∀ e, dictGet edges (s, t) = some e →
        dictGet (update_causal_strength edges s t p) (s, t)
          = some { strength := (1 - 1/10) * e.strength + (1/10) * p } := by
  constructor
  · intro h
    simp [update_causal_strength, h]
  · intro e h
    simp only [update_causal_strength, h]
    exact dictGet_dictSet_self edges (s, t) _

theorem update_causal_strength_cases_witness :
    dictGet (update_causal_strength [(("A", "B"), ⟨9/10⟩)] "A" "B" (1/10)) ("A", "B")
      = some { strength := (1 - 1/10) * (9/10) + (1/10) * (1/10) } :=
  (update_causal_strength_cases [(("A", "B"), ⟨9/10⟩)] "A" "B" (1/10)).2 ⟨9/10⟩
    (by simp [dictGet])

/-- Claim C2: starting from an existing edge with strength in `[0,1]`, any
sequence of observed probabilities in `[0,1]` leaves the edge present with
strength in `[0,1]` (each step is the convex combination
`0.9 * strength + 0.1 * p`). -/
theorem update_causal_strength_preserves_unit_interval (source target : String)
    (observations : List Rat) (hobs : ∀ p ∈ observations, 0 ≤ p ∧ p ≤ 1) :
    ∀ (edges : CausalEdges) (e : CausalEdge),
      dictGet edges (source, target) = some e →
      0 ≤ e.strength → e.strength ≤ 1 →
      ∃ e', dictGet (run_observations edges source target observations)
              (source, target) = some e'
        ∧ 0 ≤ e'.strength ∧ e'.strength ≤ 1 := by
  induction observations with
  | nil =>
    intro edges e he h0 h1
    exact ⟨e, by simpa [run_observations] using he, h0, h1⟩
  | cons p ps ih =>
    intro edges e he h0 h1
    have hp := hobs p (List.mem_cons_self p ps)
    have hstep : dictGet (update_causal_strength edges source target p)
        (source, target) = some ⟨(1 - 1/10) * e.strength + (1/10) * p⟩ :=
      (update_causal_strength_cases edges source target p).2 e he
    have h0' : (0:Rat) ≤ (1 - 1/10) * e.strength + (1/10) * p := by
      nlinarith [hp.1, hp.2]
    have h1' : (1 - 1/10 : Rat) * e.strength + (1/10) * p ≤ 1 := by
      nlinarith [hp.1, hp.2]
    have hrest := ih (fun q hq => hobs q (List.mem_cons_of_mem p hq))
      (update_causal_strength edges source target p) ⟨(1 - 1/10) * e.strength + (1/10) * p⟩
      hstep h0' h1'
    simpa [run_observations] using hrest

theorem update_causal_strength_preserves_unit_interval_witness :
    ∃ e', dictGet (run_observations [(("A", "B"), ⟨1/2⟩)] "A" "B" [9/10, 1/10])
            ("A", "B") = some e'
      ∧ 0 ≤ e'.strength ∧ e'.strength ≤ 1 :=
  update_causal_strength_preserves_unit_interval "A" "B" [9/10, 1/10]
    (by norm_num [List.forall_mem_cons]) [(("A", "B"), ⟨1/2⟩)] ⟨1/2⟩
    (by simp [dictGet]) (by norm_num) (by norm_num)

/-- A value of the Python variable `beams` inside `beam_search`.  Before the
first loop iteration every element is a bare Python list of entities
(`Beam.path`); after an iteration every element is a `(path, score)` tuple
(`Beam.pair`).  The source keeps both shapes in the same variable. -/
inductive Beam
  | path (p : List String)
  | pair (p : List String) (score : Rat)
deriving DecidableEq

/-- The injected capabilities `beam_search` calls:
`self.get_initial_entities`, `self.get_neighbors` and `self.llm.score_path`
(all unimplemented stubs or external objects in the source; abstracted as
function parameters). -/
structure BeamEnv where
  get_initial_entities : String → List String
  get_neighbors : String → List String
  score_path : String → List String → Rat

/-- Embeds one beam's body of the inner loop of `beam_search` (lines 79-84):

    neighbors = await self.get_neighbors(beam[-1])
    for neighbor in neighbors:
        new_beam = beam + [neighbor]
        score = await self.llm.score_path(query, new_beam)
        candidates.append((new_beam, score))

For a bare-list beam, `beam[-1]` is its last entity (an `IndexError` on an
empty list).  For a tuple beam — the shape every beam has from the second
iteration on — `beam[-1]` is the float score, which `get_neighbors` (typed
`entity: str`) cannot look up, and `beam + [neighbor]` concatenates a tuple
with a list, a `TypeError`; this branch is modelled as the error it raises. -/
def expand_beam (env : BeamEnv) (query : String) (beam : Beam) :
    Except String (List (List String × Rat)) :=
  match beam with
  | Beam.path p =>
    match p.getLast? with
    | none => Except.error "IndexError: list index out of range"
    | some last =>
      Except.ok ((env.get_neighbors last).map
        (fun n => (p ++ [n], env.score_path query (p ++ [n]))))
  | Beam.pair _ _ => Except.error "TypeError: can only concatenate tuple to tuple"

/-- Embeds the candidate collection of one loop iteration (lines 78-84): the
beams are visited in order, each contributing its candidates to the shared
`candidates` list; the first exception raised aborts the whole call. -/
def expand_all (env : BeamEnv) (query : String) :
    List Beam → Except String (List (List String × Rat))
  | [] => Except.ok []
  | b :: bs =>
    match expand_beam env query b with
    | Except.error e => Except.error e
    | Except.ok cs =>
      match expand_all env query bs with
      | Except.error e => Except.error e
      | Except.ok rest => Except.ok (cs ++ rest)

/-- Inserts a candidate into a descending-sorted list, after every element
with a greater-or-equal score.  Folding this over the candidates in
generation order yields exactly Python's stable
`sorted(candidates, key=lambda x: x[1], reverse=True)`. -/
def insert_desc (x : List String × Rat) : List (List String × Rat) → List (List String × Rat)
  | [] => [x]
  | y :: ys => if y.2 < x.2 then x :: y :: ys else y :: insert_desc x ys

/-- Embeds `sorted(candidates, key=lambda x: x[1], reverse=True)`: a stable
sort, descending by score. -/
def sort_desc_stable (candidates : List (List String × Rat)) : List (List String × Rat) :=
  candidates.foldl (fun acc x => insert_desc x acc) []

/-- Embeds the `for _ in range(max_depth)` loop of `beam_search`
(lines 77-86); the fuel argument is the number of remaining iterations.
Each iteration collects the candidates of all beams in order, sorts them
descending by score (stably), keeps the first `beam_width`, and makes the
kept `(path, score)` tuples the new beam set. -/
def beam_search_loop (env : BeamEnv) (query : String) (beam_width : Nat) :
    Nat → List Beam → Except String (List Beam)
  | 0, beams => Except.ok beams
  | Nat.succ d, beams =>
    match expand_all env query beams with
    | Except.error e => Except.error e
    | Except.ok candidates =>
      beam_search_loop env query beam_width d
        (((sort_desc_stable candidates).take beam_width).map
          (fun c => Beam.pair c.1 c.2))

/-- Embeds `beam_search` (lines 73-88): beams start as singleton bare lists
`[[entity] for entity in initial_entities]`, the loop runs `max_depth` times,
and whatever the variable `beams` holds afterwards is returned. -/
def beam_search (env : BeamEnv) (query : String) (beam_width max_depth : Nat) :
    Except String (List Beam) :=
  beam_search_loop env query beam_width max_depth
    ((env.get_initial_entities query).map (fun e => Beam.path [e]))

/-- Claim C3: with `beam_width = 2 ≥ 1` and `max_depth = 0` and three initial
entities, `beam_search` returns all three bare single-entity paths: more than
`beam_width` results, carrying no scores at all — the loop that would pair
paths with scores and truncate to the beam width never runs, so the function
violates both the claim and its own return annotation
`List[Tuple[List[str], float]]`. -/
theorem beam_search_depth_zero_untruncated_unscored :
    beam_search ⟨fun _ => ["X", "Y", "Z"], fun _ => [], fun _ _ => 0⟩ "q" 2 0
      = Except.ok [Beam.path ["X"], Beam.path ["Y"], Beam.path ["Z"]]
    ∧ 2 < [Beam.path ["X"], Beam.path ["Y"], Beam.path ["Z"]].length := by
  constructor
  · rfl
  · simp

theorem beam_search_loop_nil (env : BeamEnv) (query : String) (beam_width : Nat) :
    ∀ d : Nat, beam_search_loop env query beam_width d [] = Except.ok [] := by
  intro d
  induction d with
  | zero => rfl
  | succ d ih =>
    simp only [beam_search_loop, expand_all, sort_desc_stable, List.foldl_nil,
      List.take_nil, List.map_nil]
    exact ih

/-- Claim C7: whenever `get_initial_entities` yields no entities, `beam_search`
returns the empty list for every beam width and depth, and raises no error
(the candidate set stays empty through every iteration). -/
theorem beam_search_empty_initial_entities (env : BeamEnv) (query : String)
    (beam_width max_depth : Nat)
    (h : env.get_initial_entities query = []) :
    beam_search env query beam_width max_depth = Except.ok [] := by
  unfold beam_search
  rw [h]
  simpa using beam_search_loop_nil env query beam_width max_depth

theorem beam_search_empty_initial_entities_witness :
    beam_search ⟨fun _ => [], fun e => [e], fun _ _ => 1⟩ "q" 3 2 = Except.ok [] :=
  beam_search_empty_initial_entities ⟨fun _ => [], fun e => [e], fun _ _ => 1⟩ "q" 3 2 rfl

/-- Embeds `propagate_uncertainty` (lines 153-170):

    propagated_uncertainty = 1.0
    for step_uncertainty in uncertainties:
        propagated_uncertainty *= (1 - step_uncertainty)
    return 1 - propagated_uncertainty

The `reasoning_steps` parameter is accepted and never read, exactly as in the
source. -/
def propagate_uncertainty (reasoning_steps : List String) (uncertainties : List Rat) : Rat :=
  1 - uncertainties.foldl (fun propagated u => propagated * (1 - u)) 1

theorem foldl_mul_one_sub (us : List Rat) (a : Rat) :
    us.foldl (fun acc u => acc * (1 - u)) a = a * (us.map (fun u => 1 - u)).prod := by
  induction us generalizing a with
  | nil => simp
  | cons u tl ih =>
    rw [List.foldl_cons, ih, List.map_cons, List.prod_cons]
    ring

theorem prod_one_sub_bounds (us : List Rat) (h : ∀ u ∈ us, 0 ≤ u ∧ u ≤ 1) :
    0 ≤ (us.map (fun u => 1 - u)).prod ∧ (us.map (fun u => 1 - u)).prod ≤ 1 := by
  induction us with
  | nil => norm_num
  | cons u tl ih =>
    obtain ⟨hu, htl⟩ := List.forall_mem_cons.mp h
    obtain ⟨ih0, ih1⟩ := ih htl
    rw [List.map_cons, List.prod_cons]
    constructor
    · exact mul_nonneg (by linarith [hu.2]) ih0
    · nlinarith [hu.1, hu.2]

theorem prod_one_sub_eq_one_iff (us : List Rat) (h : ∀ u ∈ us, 0 ≤ u ∧ u ≤ 1) :
    (us.map (fun u => 1 - u)).prod = 1 ↔ ∀ u ∈ us, u = 0 := by
  induction us with
  | nil => simp
  | cons u tl ih =>
    obtain ⟨hu, htl⟩ := List.forall_mem_cons.mp h
    obtain ⟨p0, p1⟩ := prod_one_sub_bounds tl htl
    rw [List.map_cons, List.prod_cons, List.forall_mem_cons, ← ih htl]
    constructor
    · intro hprod
      have hu0 : (0:Rat) ≤ 1 - u := by linarith [hu.2]
      have key : 0 ≤ (1 - u) * (1 - (tl.map (fun u => 1 - u)).prod) :=
        mul_nonneg hu0 (by linarith)
      have h1 : u = 0 := by nlinarith [hu.1]
      have h2 : (tl.map (fun u => 1 - u)).prod = 1 := by
        rw [h1] at hprod
        simpa using hprod
      exact ⟨h1, h2⟩
    · rintro ⟨h1, h2⟩
      rw [h1, h2]
      norm_num

/-- Claim C4: for per-step uncertainties in `[0,1]`, the noisy-OR value
`1 - Π (1 - u_i)` computed by `propagate_uncertainty` lies in `[0,1]`, is `0`
iff every `u_i = 0`, is `1` whenever some `u_i = 1`, and is invariant under
any permutation of the uncertainties (and under the ignored
`reasoning_steps`). -/
theorem propagate_uncertainty_noisy_or_properties (reasoning_steps : List String)
    (us : List Rat) (h : ∀ u ∈ us, 0 ≤ u ∧ u ≤ 1) :
    (0 ≤ propagate_uncertainty reasoning_steps us
      ∧ propagate_uncertainty reasoning_steps us ≤ 1)
    ∧ (propagate_uncertainty reasoning_steps us = 0 ↔ ∀ u ∈ us, u = 0)
    ∧ ((∃ u ∈ us, u = 1) → propagate_uncertainty reasoning_steps us = 1)
    ∧ (∀ (steps2 : List String) (vs : List Rat), us.Perm vs →
        propagate_uncertainty steps2 vs = propagate_uncertainty reasoning_steps us) := by
  have hrw : ∀ (ss : List String) (ws : List Rat),
      propagate_uncertainty ss ws = 1 - (ws.map (fun u => 1 - u)).prod := by
    intro ss ws
    unfold propagate_uncertainty
    rw [foldl_mul_one_sub]
    ring
  obtain ⟨p0, p1⟩ := prod_one_sub_bounds us h
  refine ⟨⟨by rw [hrw]; linarith, by rw [hrw]; linarith⟩, ?_, ?_, ?_⟩
  · rw [hrw]
    constructor
    · intro h0
      exact (prod_one_sub_eq_one_iff us h).mp (by linarith)
    · intro hall
      rw [(prod_one_sub_eq_one_iff us h).mpr hall]
      norm_num
  · rintro ⟨u, hu, hu1⟩
    rw [hrw]
    have hmem : (0:Rat) ∈ us.map (fun u => 1 - u) := by
      refine List.mem_map.mpr ⟨u, hu, ?_⟩
      rw [hu1]
      norm_num
    rw [List.prod_eq_zero hmem]
    norm_num
  · intro steps2 vs hperm
    rw [hrw, hrw, ← (hperm.map (fun u => 1 - u)).prod_eq]

theorem propagate_uncertainty_noisy_or_properties_witness :
    0 ≤ propagate_uncertainty [] [1/10, 1/2, 1/5]
      ∧ propagate_uncertainty [] [1/10, 1/2, 1/5] ≤ 1 :=
  (propagate_uncertainty_noisy_or_properties [] [1/10, 1/2, 1/5]
    (by norm_num [List.forall_mem_cons])).1

/-- Claim C9: `propagate_uncertainty` on an empty uncertainty list returns
exactly `0` (the running product stays `1.0` and `1 - 1.0 = 0`), for any
`reasoning_steps` argument, with no error. -/
theorem propagate_uncertainty_empty_list (reasoning_steps : List String) :
    propagate_uncertainty reasoning_steps [] = 0 := by
  norm_num [propagate_uncertainty]

/-- Claim C10: the result of `propagate_uncertainty` depends only on the
`uncertainties` argument — the `reasoning_steps` parameter is never read, so
any two calls with the same uncertainties agree. -/
theorem propagate_uncertainty_independent_of_steps (steps1 steps2 : List String)
    (uncertainties : List Rat) :
    propagate_uncertainty steps1 uncertainties
      = propagate_uncertainty steps2 uncertainties := rfl

/-- One entry of `content['relevant_facts']` in an `analyze_knowledge` step;
`_estimate_uncertainty` reads only its `uncertainty` field
(`item['uncertainty']`, line 134). -/
structure KnowledgeFact where
  uncertainty : Rat

/-- A reasoning step as consumed by `_estimate_uncertainty`: its `type` string
and, of its otherwise opaque `content` payload, the `relevant_facts` list that
`step['content'].get('relevant_facts', [])` reads — `none` models a payload
without that key (the `get` default supplies `[]`). -/
structure ReasoningStep where
  type : String
  relevant_facts : Option (List KnowledgeFact)

/-- Embeds `_estimate_uncertainty` (lines 122-141):

    if step['type'] == 'interpret_query':
        uncertainty = 0.1
    elif step['type'] == 'analyze_knowledge':
        knowledge_uncertainties = [item['uncertainty'] for item in
                                   step['content'].get('relevant_facts', [])]
        uncertainty = np.mean(knowledge_uncertainties) if knowledge_uncertainties else 0.5
    elif step['type'] == 'synthesize_answer':
        uncertainty = 0.2
    else:
        uncertainty = 1.0

with `np.mean` of a list of rationals equal to sum / length. -/
def estimate_uncertainty_step (step : ReasoningStep) : Rat :=
  if step.type = "interpret_query" then 1/10
  else if step.type = "analyze_knowledge" then
    let knowledge_uncertainties := (step.relevant_facts.getD []).map KnowledgeFact.uncertainty
    if knowledge_uncertainties = [] then 1/2
    else knowledge_uncertainties.sum / knowledge_uncertainties.length
  else if step.type = "synthesize_answer" then 1/5
  else 1

/-- Claim C5: `_estimate_uncertainty` yields exactly `0.1` for
`interpret_query`; for `analyze_knowledge` the mean of the `uncertainty`
fields of the payload's `relevant_facts`, or `0.5` when that list is empty or
absent; exactly `0.2` for `synthesize_answer`; and exactly `1.0` for every
other step type — it is a total function, so an unknown type never aborts the
pipeline. -/
theorem estimate_uncertainty_step_cases (step : ReasoningStep) :
    (step.type = "interpret_query" → estimate_uncertainty_step step = 1/10)
    ∧ (step.type = "analyze_knowledge" → step.relevant_facts.getD [] = [] →
        estimate_uncertainty_step step = 1/2)
    ∧ (∀ facts, step.type = "analyze_knowledge" → step.relevant_facts = some facts →
        facts ≠ [] →
        estimate_uncertainty_step step
          = (facts.map KnowledgeFact.uncertainty).sum / ((facts.map KnowledgeFact.uncertainty).length : Rat))
    ∧ (step.type = "synthesize_answer" → estimate_uncertainty_step step = 1/5)
    ∧ (step.type ≠ "interpret_query" → step.type ≠ "analyze_knowledge" →
        step.type ≠ "synthesize_answer" → estimate_uncertainty_step step = 1) := by
  refine ⟨?_, ?_, ?_, ?_, ?_⟩
  · intro h
    simp [estimate_uncertainty_step, h]
  · intro h hempty
    simp [estimate_uncertainty_step, h, hempty]
  · intro facts h hfacts hne
    simp [estimate_uncertainty_step, h, hfacts, hne]
  · intro h
    simp [estimate_uncertainty_step, h]
  · intro h1 h2 h3
    simp [estimate_uncertainty_step, h1, h2, h3]

theorem estimate_uncertainty_step_cases_witness :
    estimate_uncertainty_step ⟨"unknown_step", none⟩ = 1 :=
  (estimate_uncertainty_step_cases ⟨"unknown_step", none⟩).2.2.2.2
    (by decide) (by decide) (by decide)

/-- One element of the `detailed_steps` list that `reason_with_uncertainty`
builds (lines 191-195): `{'type': ..., 'result': ..., 'uncertainty': ...}`. -/
structure DetailedStep where
  type : String
  result : String
  uncertainty : Rat

/-- Embeds line 210 of `analyze_uncertainty_sources`:
`total_uncertainty = sum(step['uncertainty'] for step in detailed_steps)`. -/
def total_uncertainty (detailed_steps : List DetailedStep) : Rat :=
  (detailed_steps.map (fun s => s.uncertainty)).sum

/-- Embeds `analyze_uncertainty_sources` (lines 202-216):

    uncertainty_sources = {}
    total_uncertainty = sum(step['uncertainty'] for step in detailed_steps)
    for step in detailed_steps:
        contribution = step['uncertainty'] / total_uncertainty \
                       if total_uncertainty > 0 else 0
        uncertainty_sources[step['type']] = contribution
    return uncertainty_sources

The total is computed once before the loop; the dict assignment on a step
type already present overwrites the earlier contribution. -/
def analyze_uncertainty_sources (detailed_steps : List DetailedStep) :
    List (String × Rat) :=
  detailed_steps.foldl
    (fun uncertainty_sources step =>
      dictSet uncertainty_sources step.type
        (if 0 < total_uncertainty detailed_steps then
          step.uncertainty / total_uncertainty detailed_steps
        else 0))
    []

/-- Claim C6, counterexample: two steps of the same type `"a"`, each with
uncertainty `0.5` (total `1 > 0`).  The claim predicts the type collapses by
summation to contribution `(0.5 + 0.5)/1 = 1`, the contributions summing
to `1`; the code's dict assignment overwrites, leaving `{"a": 0.5}` whose
contributions sum to `0.5`. -/
theorem analyze_uncertainty_sources_duplicate_type_overwrite :
    analyze_uncertainty_sources [⟨"a", "r1", 1/2⟩, ⟨"a", "r2", 1/2⟩] = [("a", 1/2)]
    ∧ ((analyze_uncertainty_sources [⟨"a", "r1", 1/2⟩, ⟨"a", "r2", 1/2⟩]).map
        Prod.snd).sum ≠ 1 := by
  have h : analyze_uncertainty_sources [⟨"a", "r1", 1/2⟩, ⟨"a", "r2", 1/2⟩]
      = [("a", 1/2)] := by
    norm_num [analyze_uncertainty_sources, total_uncertainty, dictSet]
  refine ⟨h, ?_⟩
  rw [h]
  norm_num

theorem dictSet_of_forall_ne {κ ν : Type} [DecidableEq κ] (d : List (κ × ν))
    (k : κ) (v : ν) (h : ∀ p ∈ d, p.1 ≠ k) : dictSet d k v = d ++ [(k, v)] := by
  induction d with
  | nil => rfl
  | cons p rest ih =>
    have hp : p.1 ≠ k := h p (List.mem_cons_self p rest)
    simp [dictSet, hp, ih (fun q hq => h q (List.mem_cons_of_mem p hq))]

theorem foldl_dictSet_fresh (f : DetailedStep → Rat) :
    ∀ (steps : List DetailedStep) (init : List (String × Rat)),
      (steps.map (fun s => s.type)).Nodup →
      (∀ s ∈ steps, ∀ p ∈ init, p.1 ≠ s.type) →
      steps.foldl (fun d s => dictSet d s.type (f s)) init
        = init ++ steps.map (fun s => (s.type, f s)) := by
  intro steps
  induction steps with
  | nil =>
    intro init _ _
    simp
  | cons s rest ih =>
    intro init hnodup hfresh
    have hmap : ((s :: rest).map (fun q => q.type)).Nodup
        = (s.type :: rest.map (fun q => q.type)).Nodup := by simp
    have hcons := List.nodup_cons.mp (hmap ▸ hnodup)
    rw [List.foldl_cons,
      dictSet_of_forall_ne init s.type (f s)
        (fun p hp => hfresh s (List.mem_cons_self s rest) p hp),
      ih (init ++ [(s.type, f s)]) hcons.2 ?_]
    · simp
    · intro q hq p hp
      rcases List.mem_append.mp hp with h1 | h2
      · exact hfresh q (List.mem_cons_of_mem s hq) p h1
      · have hps : p = (s.type, f s) := by simpa using h2
        rw [hps]
        intro hcontra
        have hst : s.type = q.type := hcontra
        refine hcons.1 ?_
        rw [hst]
        exact List.mem_map.mpr ⟨q, hq, rfl⟩

theorem sum_map_div_uncertainty (l : List DetailedStep) (c : Rat) :
    (l.map (fun s => s.uncertainty / c)).sum
      = (l.map (fun s => s.uncertainty)).sum / c := by
  induction l with
  | nil => simp
  | cons s rest ih =>
    simp only [List.map_cons, List.sum_cons, ih]
    ring

theorem mem_dictSet {κ ν : Type} [DecidableEq κ] (d : List (κ × ν)) (k : κ) (v : ν) :
    ∀ p ∈ dictSet d k v, p = (k, v) ∨ p ∈ d := by
  induction d with
  | nil =>
    intro p hp
    left
    simpa [dictSet] using hp
  | cons q rest ih =>
    intro p hp
    simp only [dictSet] at hp
    by_cases hq : q.1 = k
    · rw [if_pos hq] at hp
      rcases List.mem_cons.mp hp with h | h
      · exact Or.inl h
      · exact Or.inr (List.mem_cons_of_mem q h)
    · rw [if_neg hq] at hp
      rcases List.mem_cons.mp hp with h | h
      · exact Or.inr (h ▸ List.mem_cons_self q rest)
      · rcases ih p h with h' | h'
        · exact Or.inl h'
        · exact Or.inr (List.mem_cons_of_mem q h')

theorem foldl_dictSet_values_zero (g : DetailedStep → Rat) (hg : ∀ s, g s = 0) :
    ∀ (steps : List DetailedStep) (init : List (String × Rat)),
      (∀ p ∈ init, p.2 = 0) →
      ∀ p ∈ steps.foldl (fun d s => dictSet d s.type (g s)) init, p.2 = 0 := by
  intro steps
  induction steps with
  | nil =>
    intro init hinit
    simpa using hinit
  | cons s rest ih =>
    intro init hinit p hp
    rw [List.foldl_cons] at hp
    refine ih (dictSet init s.type (g s)) ?_ p hp
    intro q hq
    rcases mem_dictSet init s.type (g s) q hq with h | h
    · rw [h]
      exact hg s
    · exact hinit q h

/-- Claim C6, amended: `analyze_uncertainty_sources` maps each step type to
`u / total` where `u` is the uncertainty of the last step of that type (a
repeated type overwrites earlier contributions rather than summing them); when
the step types are pairwise distinct and the total uncertainty is positive the
contributions sum to `1`; when the total uncertainty is `0` every contribution
is `0`, the guarded division never occurring — the function is total and never
fails. -/
theorem analyze_uncertainty_sources_spec (detailed_steps : List DetailedStep) :
    ((detailed_steps.map (fun s => s.type)).Nodup →
      0 < total_uncertainty detailed_steps →
      ((analyze_uncertainty_sources detailed_steps).map Prod.snd).sum = 1)
    ∧ (total_uncertainty detailed_steps = 0 →
      ∀ p ∈ analyze_uncertainty_sources detailed_steps, p.2 = 0) := by
  constructor
  · intro hnodup htotal
    unfold analyze_uncertainty_sources
    rw [foldl_dictSet_fresh _ detailed_steps [] hnodup (by intro s _ p hp; cases hp)]
    simp only [List.nil_append, List.map_map, Function.comp_def]
    simp only [if_pos htotal]
    rw [sum_map_div_uncertainty]
    exact div_self (ne_of_gt htotal)
  · intro htotal
    unfold analyze_uncertainty_sources
    refine foldl_dictSet_values_zero _ ?_ detailed_steps [] (by intro p hp; cases hp)
    intro s
    rw [htotal]
    norm_num

theorem analyze_uncertainty_sources_spec_witness :
    ((analyze_uncertainty_sources [⟨"a", "r1", 1/2⟩, ⟨"b", "r2", 1/2⟩]).map
      Prod.snd).sum = 1 :=
  (analyze_uncertainty_sources_spec [⟨"a", "r1", 1/2⟩, ⟨"b", "r2", 1/2⟩]).1
    (by decide) (by norm_num [total_uncertainty])

/-- A retrieved item (`RetrievalResult` from `rag_system.core.structures`,
outside this module).  The code verified here touches only its `content`
attribute (line 105); the remaining fields (id, score, uncertainty,
timestamp, version) play no role. -/
structure RetrievalResult where
  content : String
deriving DecidableEq

/-- The result dict built by the dead code at lines 100-108. -/
structure ReasoningResult where
  query : String
  conclusion : String
  confidence : Rat
  uncertainty : Rat
  supporting_evidence : List String
  activated_concepts : List String
deriving DecidableEq

/-- Embeds the reachable body of `reason` (lines 14-58).  Its first statement
is `with self.driver.session() as session:`, and `self.driver` is `None` —
set on line 10 and never reassigned anywhere in the repository — so every
call raises `AttributeError` before reading any argument; even with a driver
the body would next evaluate `if timestamp:` and `k`, names bound nowhere in
the function, raising `NameError`.  No code path returns normally. -/
def reason (query : String) (retrieved_info : List RetrievalResult)
    (activated_knowledge : List (String × String)) : Except String ReasoningResult :=
  Except.error "AttributeError: NoneType object has no attribute session"

/-- Embeds the unreachable dict construction at lines 100-108 (dead code
sitting after the body of `get_neighbors`, never executed):

    reasoning_result = {
        "query": query,
        "conclusion": "This is a placeholder conclusion.",
        "confidence": 0.8,
        "uncertainty": 0.2,
        "supporting_evidence": [result.content for result in retrieved_info[:3]],
        "activated_concepts": list(activated_knowledge.keys())[:5]
    }
-/
def reasoning_result_dead_code (query : String) (retrieved_info : List RetrievalResult)
    (activated_knowledge : List (String × String)) : ReasoningResult :=
  { query := query
  , conclusion := "This is a placeholder conclusion."
  , confidence := 4/5
  , uncertainty := 1/5
  , supporting_evidence := (retrieved_info.take 3).map RetrievalResult.content
  , activated_concepts := (activated_knowledge.map Prod.fst).take 5 }

/-- Claim C8: `reason` never returns the claimed result object — every call
raises (modelled as `Except.error`), here shown on a concrete input with four
retrieved items and six activated-knowledge keys; the only code computing the
claimed shape is the unreachable construction at lines 100-108, which (were it
reachable) would indeed keep the first 3 retrieved contents and the first 5
keys. -/
theorem reason_raises_and_dead_code_shape :
    reason "q" [⟨"c1"⟩, ⟨"c2"⟩, ⟨"c3"⟩, ⟨"c4"⟩]
        [("k1", "v"), ("k2", "v"), ("k3", "v"), ("k4", "v"), ("k5", "v"), ("k6", "v")]
      = Except.error "AttributeError: NoneType object has no attribute session"
    ∧ (reasoning_result_dead_code "q" [⟨"c1"⟩, ⟨"c2"⟩, ⟨"c3"⟩, ⟨"c4"⟩]
        [("k1", "v"), ("k2", "v"), ("k3", "v"), ("k4", "v"), ("k5", "v"),
          ("k6", "v")]).supporting_evidence = ["c1", "c2", "c3"]
    ∧ (reasoning_result_dead_code "q" [⟨"c1"⟩, ⟨"c2"⟩, ⟨"c3"⟩, ⟨"c4"⟩]
        [("k1", "v"), ("k2", "v"), ("k3", "v"), ("k4", "v"), ("k5", "v"),
          ("k6", "v")]).activated_concepts = ["k1", "k2", "k3", "k4", "k5"] :=
  ⟨rfl, rfl, rfl⟩
